import Mathlib

/-!
Verification development for `check_releases.py`, a concurrent GitHub
release checker.  The script reads a JSON search-result document (with a
regex fallback extractor for malformed input), probes every repository's
releases endpoint, keeps the repositories that have at least one release
with a non-empty asset list, fetches an optional per-language byte
breakdown, sorts the hits by release count and writes an aggregate JSON
report.

The embedding is shallow: network effects are passed in explicitly.  Each
probe receives the response of its (at most two) GET requests as
arguments; the outer `Except` models a raised `requests` exception
(timeout, connection error, or the body-decode error raised by `.json()`,
which is a `RequestException` subclass), while `HttpResp.body` carries the
decoded body or a decode failure.  The Python probe returns a result dict
on a hit and `None` otherwise; the non-hit branches, which the script
distinguishes through its control flow and logging, are kept as explicit
`ProbeResult` constructors, and `probeReturn` recovers the Python return
value.  The worker pool fans out fully independent probes and drains
before aggregation, so the batch is embedded as a map over the probe
inputs followed by the collection and sort stages.
-/

/-- One repository item of the input document (a Python dict read with
`item.get(key, default)`); a `none` field is a missing key. -/
structure Item where
  full_name : Option String
  html_url : Option String
  releases_url : Option String
  description : Option String
  language : Option String
  languages_url : Option String
  created_at : Option String
  updated_at : Option String
  pushed_at : Option String
  deriving DecidableEq

/-- One element of a release's `assets` array (only its presence matters
to the script). -/
structure Asset where
  name : String
  deriving DecidableEq

/-- One release object of the releases-endpoint body; `assets` is `none`
when the key is missing. -/
structure Release where
  assets : Option (List Asset)
  deriving DecidableEq

instance exceptDecEq {ε α : Type} [DecidableEq ε] [DecidableEq α] :
    DecidableEq (Except ε α) := fun x y =>
  match x, y with
  | .error e, .error f =>
    if h : e = f then .isTrue (by rw [h]) else .isFalse (by intro hc; cases hc; exact h rfl)
  | .error _, .ok _ => .isFalse (by intro hc; cases hc)
  | .ok _, .error _ => .isFalse (by intro hc; cases hc)
  | .ok a, .ok b =>
    if h : a = b then .isTrue (by rw [h]) else .isFalse (by intro hc; cases hc; exact h rfl)

/-- An HTTP response: status, response headers as an association list, and
the decoded body (`Except.error` when decoding raises). -/
structure HttpResp (β : Type) where
  status : Nat
  headers : List (String × String)
  body : Except String β
  deriving DecidableEq

/-- Outcome of one `requests.get`: `Except.error` models a raised
`RequestException` carrying its description. -/
abbrev GetResult (β : Type) := Except String (HttpResp β)

/-- Per-language entry of the breakdown: raw byte count and the line
estimate derived from it. -/
structure LangEntry where
  bytes : Nat
  lines : Nat
  deriving DecidableEq

/-- The result dict built by `check_single_repo` on a hit (lines 80-91 of
`check_releases.py`). -/
structure FoundRecord where
  name : String
  repo_url : String
  description : String
  language : String
  languages_url : String
  languages : List (String × LangEntry)
  releases_count : Nat
  created_at : String
  updated_at : String
  pushed_at : String
  deriving DecidableEq

/-- Discriminated probe outcome.  `found` is the returned dict; all other
constructors return `None` in Python and are distinguished there by the
branch taken (and the progress line printed). -/
inductive ProbeResult where
  | found (r : FoundRecord)
  | notFound
  | rateLimited (remaining : String)
  | forbidden
  | httpError (status : Nat)
  | transportError (msg : String)
  deriving DecidableEq

/-- The id-placeholder `\x7b/id\x7d` stripped from the releases endpoint
template (line 36). -/
def placeholderChars : List Char := "{/id}".toList

/-- Python `str.replace('\x7b/id\x7d', '')`: remove every occurrence of the
placeholder, scanning left to right, non-overlapping. -/
def removePlaceholder : List Char → List Char
  | [] => []
  | c :: rest =>
    if placeholderChars.isPrefixOf (c :: rest) then
      removePlaceholder (rest.drop (placeholderChars.length - 1))
    else
      c :: removePlaceholder rest
termination_by l => l.length
decreasing_by
  · simp only [List.length_drop, List.length_cons]
    omega
  · simp only [List.length_cons]
    omega

/-- Line 36: `releases_api_url = releases_url.replace('\x7b/id\x7d', '')`,
with the field read as `item.get('releases_url', '')`.  The releases GET of
the probe is issued against exactly this URL. -/
def releases_api_url (item : Item) : String :=
  String.mk (removePlaceholder (item.releases_url.getD "").toList)

/-- Line 49's filter condition: `r.get('assets') and
len(r.get('assets', [])) > 0`, i.e. the assets key is present and the list
is non-empty. -/
def hasAssets (r : Release) : Bool :=
  match r.assets with
  | some assets => !assets.isEmpty
  | none => false

/-- Line 66: `round(byte_count / 35)` with `BYTES_PER_LINE = 35`.  Python
rounds the float quotient half to even; an exact half would need
`2*b = 35*(2*n+1)`, impossible for natural `b` since the right side is
odd, so nearest-integer rounding (computed as `(2*b+35)/70` in `Nat`)
agrees with the source for every byte count in floating range. -/
def roundDiv35 (b : Nat) : Nat := (2 * b + 35) / 70

/-- Lines 56-78: the secondary languages lookup.  No request is made when
the URL is empty; a raised exception, a non-200 status or a body-decode
failure all leave the breakdown empty; on success every language maps to
its byte count and derived line estimate. -/
def computeLanguages (languages_url : String) :
    GetResult (List (String × Nat)) → List (String × LangEntry) :=
  fun langRes =>
    if languages_url = "" then []
    else
      match langRes with
      | .error _ => []
      | .ok resp =>
        if resp.status = 200 then
          match resp.body with
          | .error _ => []
          | .ok langs =>
            langs.map (fun p => (p.1, { bytes := p.2, lines := roundDiv35 p.2 }))
        else []

/-- Lines 15-114: probe one repository.  `relRes` is the response of the
GET against `releases_api_url item`; `langRes` the response of the GET
against the languages URL (consulted only on a hit with a non-empty
languages URL). -/
def check_single_repo (item : Item) (relRes : GetResult (List Release))
    (langRes : GetResult (List (String × Nat))) : ProbeResult :=
  let repo_name := item.full_name.getD "Unknown"
  let repo_url := item.html_url.getD "N/A"
  let description := item.description.getD ""
  let language := item.language.getD ""
  let languages_url := item.languages_url.getD ""
  let created_at := item.created_at.getD "N/A"
  let updated_at := item.updated_at.getD "N/A"
  let pushed_at := item.pushed_at.getD "N/A"
  match relRes with
  | .error e => .transportError e
  | .ok response =>
    if response.status = 200 then
      match response.body with
      | .error e => .transportError e
      | .ok releases =>
        let releases_with_assets := releases.filter hasAssets
        if releases_with_assets.isEmpty then
          .notFound
        else
          .found {
            name := repo_name
            repo_url := repo_url
            description := description
            language := language
            languages_url := languages_url
            languages := computeLanguages languages_url langRes
            releases_count := releases_with_assets.length
            created_at := created_at
            updated_at := updated_at
            pushed_at := pushed_at }
    else if response.status = 403 then
      match response.headers.lookup "X-RateLimit-Remaining" with
      | some remaining => .rateLimited remaining
      | none => .forbidden
    else
      .httpError response.status

/-- Lines 224-227: the dispatcher appends the returned dict when it is
truthy, i.e. exactly the `found` outcomes. -/
def probeReturn : ProbeResult → Option FoundRecord
  | .found r => some r
  | _ => none

/-- A probe outcome the spec classifies as an error (rate-limited,
forbidden, HTTP error, transport failure). -/
def isErrorResult : ProbeResult → Bool
  | .rateLimited _ => true
  | .forbidden => true
  | .httpError _ => true
  | .transportError _ => true
  | _ => false

/-- A probe outcome that is a hit. -/
def isFoundResult : ProbeResult → Bool
  | .found _ => true
  | _ => false

/-- One dispatch unit: the descriptor together with the responses its two
GET requests would receive. -/
abbrev ProbeEnv :=
  Item × GetResult (List Release) × GetResult (List (String × Nat))

/-- Lines 216-227: full fan-out of independent probes (the pool drains
before aggregation, so the batch is the list of all probe outcomes). -/
def runAll (probes : List ProbeEnv) : List ProbeResult :=
  probes.map (fun p => check_single_repo p.1 p.2.1 p.2.2)

/-- Lines 224-227: collect the truthy results as the futures complete. -/
def collectResults (results : List ProbeResult) : List FoundRecord :=
  results.filterMap probeReturn

/-- Line 235: `repos_with_releases.sort(key=lambda x: x['releases_count'],
reverse=True)` — Python's stable sort, descending on the count, embedded
as the (stable) merge sort under the reversed comparison. -/
def sortByCountDesc (l : List FoundRecord) : List FoundRecord :=
  l.mergeSort (fun a b => decide (b.releases_count ≤ a.releases_count))

/-- Lines 208-241 of `check_repo_releases` after a successful load: run
all probes, collect, sort; returns the report list and the total
descriptor count. -/
def check_repo_releases (probes : List ProbeEnv) : List FoundRecord × Nat :=
  (sortByCountDesc (collectResults (runAll probes)), probes.length)

/-- The output artifact of lines 284-293: summary comment plus the repos
list. -/
structure OutputData where
  comment : String
  repos : List FoundRecord
  deriving DecidableEq

/-- Line 287: `f'...仓库有releases'` summary string. -/
def summaryComment (found total : Nat) : String :=
  toString found ++ "/" ++ toString total ++ " 仓库有releases"

/-- Lines 284-293: the artifact is written only when the repos list is
truthy (non-empty). -/
def saveOutput (repos : List FoundRecord) (total : Nat) : Option OutputData :=
  match repos with
  | [] => none
  | _ => some { comment := summaryComment repos.length total, repos := repos }

/-- The end-to-end run on a successfully loaded input: probe, aggregate,
then write the artifact if any repository matched. -/
def mainRun (probes : List ProbeEnv) : Option OutputData :=
  saveOutput (check_repo_releases probes).1 (check_repo_releases probes).2

/-! ### Fallback extractor (lines 151-201)

When the primary JSON parse fails, the script scans the raw text with one
big regular expression (line 160) under `re.DOTALL` and `finditer`.  The
pattern anchors, in order, on the literals `"full_name":`,
`"description":`, `"language":`, `"languages_url":`, `"created_at":`,
`"updated_at":`, `"pushed_at":` and `"releases_url":`, each followed by
optional whitespace and a value sub-pattern, with lazy `.*?` gaps in
between.  The embedding below realises the deterministic backtracking
this pattern performs: every lazy gap tries the earliest occurrence of
the next anchor and moves to later occurrences while the value
sub-pattern fails there.  (Re-expanding an earlier gap after a *later*
field fails is not modelled; on documents where every anchor occurrence
admits its value — such as the round-trip blob below — the behaviours
coincide.)  `finditer` restarts after the end of each match. -/

/-- Python `\s` for the ASCII whitespace that can occur in the input. -/
def isWsChar (c : Char) : Bool :=
  c == ' ' || c == '\t' || c == '\n' || c == '\r'

/-- The `\s*` between an anchor and its value. -/
def skipWs (l : List Char) : List Char := l.dropWhile isWsChar

/-- Value sub-pattern `"([^"]+)"`: a non-empty quoted run of non-quote
characters; the capture excludes the quotes. -/
def parseQuotedPlain (l : List Char) : Option (List Char × List Char) :=
  match l with
  | '"' :: rest =>
    let content := rest.takeWhile (fun c => !(c == '"'))
    match rest.dropWhile (fun c => !(c == '"')) with
    | '"' :: tail => if content.isEmpty then none else some (content, tail)
    | _ => none
  | _ => none

/-- Lazy scan of `(?:[^"\\]|\\.)*?"` after an opening quote: consume up
to the first unescaped quote, keeping the quotes in the capture (the
regex group includes them). -/
def scanToQuote (acc : List Char) : List Char → Option (List Char × List Char)
  | [] => none
  | '"' :: rest => some (acc ++ ['"'], rest)
  | '\\' :: c :: rest => scanToQuote (acc ++ ['\\', c]) rest
  | c :: rest => scanToQuote (acc ++ [c]) rest

/-- Value sub-pattern `("(?:[^"\\]|\\.)*?"|null)` used for `description`
and `language`: a quoted JSON string (captured with its quotes) or the
literal `null`. -/
def parseStringOrNull (l : List Char) : Option (List Char × List Char) :=
  match l with
  | '"' :: rest => scanToQuote ['"'] rest
  | 'n' :: 'u' :: 'l' :: 'l' :: rest => some ("null".toList, rest)
  | _ => none

/-- The literal `"https://api.github.com/repos/` opening the
`releases_url` value in the pattern. -/
def relUrlOpenChars : List Char := "\"https://api.github.com/repos/".toList

/-- The literal `/releases` closing the pattern. -/
def relUrlCloseChars : List Char := "/releases".toList

/-- Value sub-pattern
`"https://api\.github\.com/repos/([^/]+/[^/]+)/releases`: the capture is
the `owner/repo` path.  Both `[^/]+` runs are maximal (they cannot cross
the `/` the following literal starts with, so no shorter run can
succeed). -/
def parseRepoPath (l : List Char) : Option (List Char × List Char) :=
  if relUrlOpenChars.isPrefixOf l then
    let l₁ := l.drop relUrlOpenChars.length
    let seg1 := l₁.takeWhile (fun c => !(c == '/'))
    if seg1.isEmpty then none
    else
      match l₁.dropWhile (fun c => !(c == '/')) with
      | '/' :: l₂ =>
        let seg2 := l₂.takeWhile (fun c => !(c == '/'))
        if seg2.isEmpty then none
        else
          let l₃ := l₂.dropWhile (fun c => !(c == '/'))
          if relUrlCloseChars.isPrefixOf l₃ then
            some (seg1 ++ '/' :: seg2, l₃.drop relUrlCloseChars.length)
          else none
      | _ => none
  else none

/-- One lazy gap `.*?"name":\s*` followed by a value sub-pattern: try the
value at the earliest anchor occurrence, falling back to later
occurrences while it fails. -/
def scanFor {α : Type} (anchor : List Char)
    (parseVal : List Char → Option (α × List Char)) :
    List Char → Option (α × List Char)
  | [] => none
  | c :: rest =>
    match
      (if anchor.isPrefixOf (c :: rest) then
        parseVal (skipWs (rest.drop (anchor.length - 1)))
      else none) with
    | some r => some r
    | none => scanFor anchor parseVal rest

/-- The eight capture groups of one match of the pattern. -/
structure RawMatch where
  full_name : List Char
  description_raw : List Char
  language_raw : List Char
  languages_url : List Char
  created_at : List Char
  updated_at : List Char
  pushed_at : List Char
  repo_path : List Char
  deriving DecidableEq

/-- The tail of the pattern after its leading `"full_name":\s*` anchor:
the full-name capture and the seven anchored fields that follow. -/
def matchRepoTail (s : List Char) : Option (RawMatch × List Char) := do
  let (fn, s₁) ← parseQuotedPlain s
  let (de, s₂) ← scanFor ("\"description\":".toList) parseStringOrNull s₁
  let (la, s₃) ← scanFor ("\"language\":".toList) parseStringOrNull s₂
  let (lu, s₄) ← scanFor ("\"languages_url\":".toList) parseQuotedPlain s₃
  let (ca, s₅) ← scanFor ("\"created_at\":".toList) parseQuotedPlain s₄
  let (ua, s₆) ← scanFor ("\"updated_at\":".toList) parseQuotedPlain s₅
  let (pa, s₇) ← scanFor ("\"pushed_at\":".toList) parseQuotedPlain s₆
  let (rp, s₈) ← scanFor ("\"releases_url\":".toList) parseRepoPath s₇
  return ({ full_name := fn, description_raw := de, language_raw := la,
            languages_url := lu, created_at := ca, updated_at := ua,
            pushed_at := pa, repo_path := rp }, s₈)

/-- `re.finditer`: repeatedly take the leftmost match and restart after
its end.  The fuel (instantiated with the text length) bounds the number
of matches; each match consumes at least one character. -/
def extractMatches : Nat → List Char → List RawMatch
  | 0, _ => []
  | fuel + 1, s =>
    match scanFor ("\"full_name\":".toList) matchRepoTail s with
    | none => []
    | some (m, rest) => m :: extractMatches fuel rest

/-- Python `str.strip('"')`: drop every leading and trailing quote. -/
def stripQuotes (l : List Char) : List Char :=
  ((l.dropWhile (fun c => c == '"')).reverse.dropWhile (fun c => c == '"')).reverse

/-- Lines 173-183: a captured `null` decodes to the empty string, a
quoted capture is stripped of its quotes. -/
def decodeNullable (raw : List Char) : String :=
  if raw = "null".toList then "" else String.mk (stripQuotes raw)

/-- Lines 185-195: rebuild one item dict from a match, reconstructing
`html_url` and `releases_url` from the captured repository path. -/
def rawToItem (m : RawMatch) : Item :=
  { full_name := some (String.mk m.full_name)
    html_url := some ("https://github.com/" ++ String.mk m.repo_path)
    releases_url :=
      some ("https://api.github.com/repos/" ++ String.mk m.repo_path ++ "/releases{/id}")
    description := some (decodeNullable m.description_raw)
    language := some (decodeNullable m.language_raw)
    languages_url := some (String.mk m.languages_url)
    created_at := some (String.mk m.created_at)
    updated_at := some (String.mk m.updated_at)
    pushed_at := some (String.mk m.pushed_at) }

/-- Lines 151-201: the whole fallback extraction of a raw document. -/
def fallbackItems (content : List Char) : List Item :=
  (extractMatches content.length content).map rawToItem

/-- A failing secondary languages call: a raised exception, a non-200
status, or a body-decode failure (lines 59-78 catch all three). -/
def langResFails : GetResult (List (String × Nat)) → Bool
  | .error _ => true
  | .ok resp =>
    !(resp.status == 200) ||
      (match resp.body with
       | .error _ => true
       | .ok _ => false)

/-- The C7 round-trip blob: one repository's fields in the order the
pattern expects — `full_name` of `a/b`, a null description, language Go,
a languages URL, the three timestamps, and a releases URL containing
`a/b/releases`. -/
def c7blob : String :=
  "\x7b \"full_name\": \"a/b\", \"description\": null, \"language\": \"Go\", " ++
  "\"languages_url\": \"https://api.github.com/repos/a/b/languages\", " ++
  "\"created_at\": \"2020-01-01T00:00:00Z\", " ++
  "\"updated_at\": \"2020-01-02T00:00:00Z\", " ++
  "\"pushed_at\": \"2020-01-03T00:00:00Z\", " ++
  "\"releases_url\": \"https://api.github.com/repos/a/b/releases\x7b/id\x7d\" \x7d"

/-! ### Concrete fixtures used by the witnesses -/

/-- A fully populated input item. -/
def itemW : Item :=
  { full_name := some "w/w"
    html_url := some "https://github.com/w/w"
    releases_url := some "https://api.github.com/repos/w/w/releases{/id}"
    description := some "demo"
    language := some "Go"
    languages_url := some "https://api.github.com/repos/w/w/languages"
    created_at := some "2020-01-01T00:00:00Z"
    updated_at := some "2020-01-02T00:00:00Z"
    pushed_at := some "2020-01-03T00:00:00Z" }

/-- A 200 releases response with one release carrying one asset. -/
def relOkOne : GetResult (List Release) :=
  .ok { status := 200, headers := [], body := .ok [{ assets := some [{ name := "pkg.zip" }] }] }

/-- A 200 releases response whose releases all lack assets. -/
def relOkNone : GetResult (List Release) :=
  .ok { status := 200, headers := [], body := .ok [{ assets := some [] }, { assets := none }] }

/-- A 403 response carrying the remaining-quota header. -/
def rel403Hdr : GetResult (List Release) :=
  .ok { status := 403, headers := [("X-RateLimit-Remaining", "0")], body := .ok [] }

/-- A 403 response without the remaining-quota header. -/
def rel403Bare : GetResult (List Release) :=
  .ok { status := 403, headers := [], body := .ok [] }

/-- A successful languages response. -/
def langOk : GetResult (List (String × Nat)) :=
  .ok { status := 200, headers := [], body := .ok [("Go", 350)] }

/-- A raised exception on the languages request. -/
def langFail : GetResult (List (String × Nat)) := .error "timeout"

/-! ### Derived forms of the probe used in the proofs -/

/-- The result dict the probe builds on a hit, as a function of the
inputs (the fields of lines 80-91). -/
def foundRecordOf (item : Item) (releases : List Release)
    (lang : GetResult (List (String × Nat))) : FoundRecord :=
  { name := item.full_name.getD "Unknown"
    repo_url := item.html_url.getD "N/A"
    description := item.description.getD ""
    language := item.language.getD ""
    languages_url := item.languages_url.getD ""
    languages := computeLanguages (item.languages_url.getD "") lang
    releases_count := (releases.filter hasAssets).length
    created_at := item.created_at.getD "N/A"
    updated_at := item.updated_at.getD "N/A"
    pushed_at := item.pushed_at.getD "N/A" }

/-- Unfolding of the probe on a 200 response with a decoded body. -/
theorem check_200_eq (item : Item) (resp : HttpResp (List Release))
    (releases : List Release) (lang : GetResult (List (String × Nat)))
    (hst : resp.status = 200) (hbody : resp.body = .ok releases) :
    check_single_repo item (.ok resp) lang =
      if (releases.filter hasAssets).isEmpty then .notFound
      else .found (foundRecordOf item releases lang) := by
  simp only [check_single_repo, foundRecordOf, hst, hbody]
  simp

/-! ### Claims -/

/-- C1: on a 200 releases response, the probe is a hit iff some release
has a non-empty assets list, the reported count equals the number of
releases with assets (not the total), and with no such release the
outcome is `notFound`. -/
theorem c1_found_iff_release_with_assets (item : Item)
    (resp : HttpResp (List Release)) (releases : List Release)
    (lang : GetResult (List (String × Nat)))
    (hst : resp.status = 200) (hbody : resp.body = .ok releases) :
    (isFoundResult (check_single_repo item (.ok resp) lang) = true ↔
        ∃ r ∈ releases, hasAssets r = true) ∧
    (∀ rec, check_single_repo item (.ok resp) lang = .found rec →
        rec.releases_count = (releases.filter hasAssets).length) ∧
    ((∀ r ∈ releases, hasAssets r = false) →
        check_single_repo item (.ok resp) lang = .notFound) := by
  rw [check_200_eq item resp releases lang hst hbody]
  cases hemp : (releases.filter hasAssets).isEmpty with
  | true =>
    have hnil : releases.filter hasAssets = [] := List.isEmpty_iff.mp hemp
    refine ⟨?_, ?_, ?_⟩
    · simp only [if_pos rfl, isFoundResult]
      constructor
      · intro h
        simp at h
      · rintro ⟨r, hr, ha⟩
        have := List.filter_eq_nil_iff.mp hnil r hr
        simp [ha] at this
    · intro rec h
      simp at h
    · intro _
      simp
  | false =>
    have hne : releases.filter hasAssets ≠ [] := List.isEmpty_eq_false.mp hemp
    rw [if_neg Bool.false_ne_true]
    refine ⟨?_, ?_, ?_⟩
    · simp only [isFoundResult]
      constructor
      · intro _
        obtain ⟨r, hr⟩ := List.exists_mem_of_ne_nil _ hne
        have := List.mem_filter.mp hr
        exact ⟨r, this.1, this.2⟩
      · intro _
        trivial
    · intro rec h
      cases h
      rfl
    · intro hall
      exact absurd (List.filter_eq_nil_iff.mpr (fun a ha => by simp [hall a ha])) hne

/-- Witness for C1 at a concrete hit: one release with one asset. -/
theorem c1_witness :
    (isFoundResult (check_single_repo itemW relOkOne langOk) = true ↔
        ∃ r ∈ [({ assets := some [{ name := "pkg.zip" }] } : Release)], hasAssets r = true) ∧
    (∀ rec, check_single_repo itemW relOkOne langOk = .found rec →
        rec.releases_count =
          (([({ assets := some [{ name := "pkg.zip" }] } : Release)]).filter hasAssets).length) ∧
    ((∀ r ∈ [({ assets := some [{ name := "pkg.zip" }] } : Release)], hasAssets r = false) →
        check_single_repo itemW relOkOne langOk = .notFound) :=
  c1_found_iff_release_with_assets itemW
    { status := 200, headers := [], body := .ok [{ assets := some [{ name := "pkg.zip" }] }] }
    [{ assets := some [{ name := "pkg.zip" }] }] langOk rfl rfl

/-- C2: on a 403 releases response, the probe classifies as rate limited
— reporting the remaining-quota header value — exactly when the
`X-RateLimit-Remaining` header is present, as forbidden when it is
absent, and the two outcomes are distinct. -/
theorem c2_rate_limited_vs_forbidden (item : Item)
    (resp : HttpResp (List Release)) (lang : GetResult (List (String × Nat)))
    (hst : resp.status = 403) :
    (∀ v, resp.headers.lookup "X-RateLimit-Remaining" = some v →
        check_single_repo item (.ok resp) lang = .rateLimited v) ∧
    (resp.headers.lookup "X-RateLimit-Remaining" = none →
        check_single_repo item (.ok resp) lang = .forbidden) ∧
    (∀ v, ProbeResult.rateLimited v ≠ ProbeResult.forbidden) := by
  refine ⟨?_, ?_, ?_⟩
  · intro v hv
    simp [check_single_repo, hst, hv]
  · intro hv
    simp [check_single_repo, hst, hv]
  · intro v h
    cases h

/-- Witness for C2, exercising both 403 branches on concrete headers. -/
theorem c2_witness :
    check_single_repo itemW rel403Hdr langOk = .rateLimited "0" ∧
    check_single_repo itemW rel403Bare langOk = .forbidden :=
  ⟨(c2_rate_limited_vs_forbidden itemW
      { status := 403, headers := [("X-RateLimit-Remaining", "0")], body := .ok [] }
      langOk rfl).1 "0" rfl,
   (c2_rate_limited_vs_forbidden itemW
      { status := 403, headers := [], body := .ok [] }
      langOk rfl).2.1 rfl⟩

/-- Inversion of a hit: a `found` outcome forces a 200 response with a
decoded body having at least one release with assets, and the record is
exactly the one built on lines 80-91. -/
theorem found_inversion (item : Item) (rel : GetResult (List Release))
    (lang : GetResult (List (String × Nat))) (rec : FoundRecord)
    (h : check_single_repo item rel lang = .found rec) :
    ∃ resp releases, rel = .ok resp ∧ resp.status = 200 ∧
      resp.body = .ok releases ∧ releases.filter hasAssets ≠ [] ∧
      rec = foundRecordOf item releases lang := by
  cases rel with
  | error e => simp [check_single_repo] at h
  | ok resp =>
    by_cases h200 : resp.status = 200
    · cases hb : resp.body with
      | error e => simp [check_single_repo, h200, hb] at h
      | ok releases =>
        rw [check_200_eq item resp releases lang h200 hb] at h
        cases hemp : (releases.filter hasAssets).isEmpty with
        | true => rw [hemp] at h; simp at h
        | false =>
          rw [hemp] at h
          rw [if_neg Bool.false_ne_true] at h
          cases h
          exact ⟨resp, releases, rfl, h200, hb,
            List.isEmpty_eq_false.mp hemp, rfl⟩
    · by_cases h403 : resp.status = 403
      · cases hl : resp.headers.lookup "X-RateLimit-Remaining" with
        | none => simp [check_single_repo, h200, h403, hl] at h
        | some v => simp [check_single_repo, h200, h403, hl] at h
      · simp [check_single_repo, h200, h403] at h

/-- C10: the probe reads each descriptor field with its fixed default —
`Unknown` for the full name, `N/A` for the web URL and the three
timestamps, the empty string for description, language, languages URL and
releases URL — and a hit carries exactly these resolved values. -/
theorem c10_field_defaults (item : Item) (rel : GetResult (List Release))
    (lang : GetResult (List (String × Nat))) (rec : FoundRecord)
    (h : check_single_repo item rel lang = .found rec) :
    rec.name = item.full_name.getD "Unknown" ∧
    rec.repo_url = item.html_url.getD "N/A" ∧
    rec.description = item.description.getD "" ∧
    rec.language = item.language.getD "" ∧
    rec.languages_url = item.languages_url.getD "" ∧
    rec.created_at = item.created_at.getD "N/A" ∧
    rec.updated_at = item.updated_at.getD "N/A" ∧
    rec.pushed_at = item.pushed_at.getD "N/A" ∧
    releases_api_url item =
      String.mk (removePlaceholder (item.releases_url.getD "").toList) := by
  obtain ⟨resp, releases, -, -, -, -, hrec⟩ :=
    found_inversion item rel lang rec h
  subst hrec
  exact ⟨rfl, rfl, rfl, rfl, rfl, rfl, rfl, rfl, rfl⟩

/-- Witness for C10: a probe of `itemW` on a hit, with every field of the
record evaluated. -/
theorem c10_witness :
    (foundRecordOf itemW [{ assets := some [{ name := "pkg.zip" }] }] langOk).name =
        itemW.full_name.getD "Unknown" ∧
    (foundRecordOf itemW [{ assets := some [{ name := "pkg.zip" }] }] langOk).repo_url =
        itemW.html_url.getD "N/A" ∧
    (foundRecordOf itemW [{ assets := some [{ name := "pkg.zip" }] }] langOk).description =
        itemW.description.getD "" ∧
    (foundRecordOf itemW [{ assets := some [{ name := "pkg.zip" }] }] langOk).language =
        itemW.language.getD "" ∧
    (foundRecordOf itemW [{ assets := some [{ name := "pkg.zip" }] }] langOk).languages_url =
        itemW.languages_url.getD "" ∧
    (foundRecordOf itemW [{ assets := some [{ name := "pkg.zip" }] }] langOk).created_at =
        itemW.created_at.getD "N/A" ∧
    (foundRecordOf itemW [{ assets := some [{ name := "pkg.zip" }] }] langOk).updated_at =
        itemW.updated_at.getD "N/A" ∧
    (foundRecordOf itemW [{ assets := some [{ name := "pkg.zip" }] }] langOk).pushed_at =
        itemW.pushed_at.getD "N/A" ∧
    releases_api_url itemW =
      String.mk (removePlaceholder (itemW.releases_url.getD "").toList) :=
  c10_field_defaults itemW relOkOne langOk
    (foundRecordOf itemW [{ assets := some [{ name := "pkg.zip" }] }] langOk)
    (by decide)

/-- The placeholder spelled out as characters. -/
theorem placeholderChars_eq :
    placeholderChars = ['\x7b', '/', 'i', 'd', '\x7d'] := by decide

/-- A text without an opening brace is left unchanged by the placeholder
removal. -/
theorem removePlaceholder_no_brace (l : List Char) (h : ∀ c ∈ l, c ≠ '\x7b') :
    removePlaceholder l = l := by
  induction l with
  | nil => rw [removePlaceholder]
  | cons c rest ih =>
    have hc : c ≠ '\x7b' := h c (List.mem_cons_self c rest)
    have hpre : placeholderChars.isPrefixOf (c :: rest) = false := by
      rw [placeholderChars_eq]
      show (('\x7b' == c) && _) = false
      have : ('\x7b' == c) = false := by
        simpa using fun hcc => hc hcc.symm
      rw [this, Bool.false_and]
    rw [removePlaceholder, hpre]
    simp only [Bool.false_eq_true, if_false]
    rw [ih (fun x hx => h x (List.mem_cons_of_mem c hx))]

/-- Removing the placeholder from `pre ++ placeholder ++ suf` yields
`pre ++ suf` when neither side contains an opening brace. -/
theorem removePlaceholder_strips (pre suf : List Char)
    (hpre : ∀ c ∈ pre, c ≠ '\x7b') (hsuf : ∀ c ∈ suf, c ≠ '\x7b') :
    removePlaceholder (pre ++ placeholderChars ++ suf) = pre ++ suf := by
  induction pre with
  | nil =>
    rw [placeholderChars_eq]
    show removePlaceholder ('\x7b' :: '/' :: 'i' :: 'd' :: '\x7d' :: suf) = suf
    rw [removePlaceholder]
    have hp : placeholderChars.isPrefixOf
        ('\x7b' :: '/' :: 'i' :: 'd' :: '\x7d' :: suf) = true := by
      rw [placeholderChars_eq]
      simp [List.isPrefixOf]
    rw [hp]
    simp only [if_true]
    have hlen : placeholderChars.length - 1 = 4 := by decide
    rw [hlen]
    show removePlaceholder suf = suf
    exact removePlaceholder_no_brace suf hsuf
  | cons c pre₂ ih =>
    have hc : c ≠ '\x7b' := hpre c (List.mem_cons_self c pre₂)
    have hpre₂ : placeholderChars.isPrefixOf
        (c :: (pre₂ ++ placeholderChars ++ suf)) = false := by
      rw [placeholderChars_eq]
      show (('\x7b' == c) && _) = false
      have : ('\x7b' == c) = false := by
        simpa using fun hcc => hc hcc.symm
      rw [this, Bool.false_and]
    show removePlaceholder (c :: (pre₂ ++ placeholderChars ++ suf)) = c :: (pre₂ ++ suf)
    rw [removePlaceholder, hpre₂]
    simp only [Bool.false_eq_true, if_false]
    rw [ih (fun x hx => hpre x (List.mem_cons_of_mem c hx))]

/-- C9: for a releases endpoint template containing the id-placeholder,
the concrete URL the probe requests is the template with that literal
substring stripped. -/
theorem c9_probe_url_strips_placeholder (item : Item) (pre suf : String)
    (hurl : item.releases_url =
      some (String.mk (pre.toList ++ placeholderChars ++ suf.toList)))
    (hpre : ∀ c ∈ pre.toList, c ≠ '\x7b') (hsuf : ∀ c ∈ suf.toList, c ≠ '\x7b') :
    releases_api_url item = pre ++ suf := by
  simp only [releases_api_url, hurl, Option.getD_some]
  show String.mk (removePlaceholder (pre.toList ++ placeholderChars ++ suf.toList)) =
    pre ++ suf
  rw [removePlaceholder_strips _ _ hpre hsuf]
  cases pre
  cases suf
  rfl

/-- Witness for C9: the template of `itemW`, whose placeholder sits at the
end. -/
theorem c9_witness :
    releases_api_url itemW = "https://api.github.com/repos/w/w/releases" ++ "" :=
  c9_probe_url_strips_placeholder itemW
    "https://api.github.com/repos/w/w/releases" "" (by decide) (by decide) (by decide)

/-- A failing languages call leaves the breakdown empty. -/
theorem computeLanguages_eq_nil_of_fails (url : String)
    (lang : GetResult (List (String × Nat))) (h : langResFails lang = true) :
    computeLanguages url lang = [] := by
  cases lang with
  | error e => simp [computeLanguages]
  | ok resp =>
    by_cases hst : resp.status = 200
    · cases hb : resp.body with
      | error e => simp [computeLanguages, hb]
      | ok langs =>
        simp [langResFails, hst, hb] at h
    · simp [computeLanguages, hst]

/-- C8: the hit/miss classification of a probe never depends on the
languages response; on a hit, a failing languages call leaves the
breakdown empty with the rest of the record unchanged, and a successful
call fills in, per language, the byte count and the derived line
estimate. -/
theorem c8_language_degrades_without_failing (item : Item)
    (rel : GetResult (List Release)) :
    (∀ lang lang₂,
        isFoundResult (check_single_repo item rel lang) =
          isFoundResult (check_single_repo item rel lang₂)) ∧
    (∀ lang lang₂ rec rec₂,
        check_single_repo item rel lang = .found rec →
        check_single_repo item rel lang₂ = .found rec₂ →
        rec₂ = { rec with languages := rec₂.languages }) ∧
    (∀ lang rec, langResFails lang = true →
        check_single_repo item rel lang = .found rec → rec.languages = []) ∧
    (∀ resp langs rec, resp.status = 200 → resp.body = .ok langs →
        item.languages_url.getD "" ≠ "" →
        check_single_repo item rel (.ok resp) = .found rec →
        rec.languages =
          langs.map (fun p => (p.1, { bytes := p.2, lines := roundDiv35 p.2 }))) := by
  refine ⟨?_, ?_, ?_, ?_⟩
  · intro lang lang₂
    cases rel with
    | error e => rfl
    | ok resp =>
      by_cases h200 : resp.status = 200
      · cases hb : resp.body with
        | error e => simp [check_single_repo, h200, hb]
        | ok releases =>
          rw [check_200_eq item resp releases lang h200 hb,
            check_200_eq item resp releases lang₂ h200 hb]
          cases (releases.filter hasAssets).isEmpty <;> rfl
      · simp [check_single_repo, h200]
  · intro lang lang₂ rec rec₂ h h₂
    obtain ⟨resp, releases, hrel, -, hbody, -, hrec⟩ :=
      found_inversion item rel lang rec h
    obtain ⟨resp₂, releases₂, hrel₂, -, hbody₂, -, hrec₂⟩ :=
      found_inversion item rel lang₂ rec₂ h₂
    rw [hrel] at hrel₂
    cases hrel₂
    rw [hbody] at hbody₂
    cases hbody₂
    subst hrec
    subst hrec₂
    rfl
  · intro lang rec hfail h
    obtain ⟨resp, releases, -, -, -, -, hrec⟩ :=
      found_inversion item rel lang rec h
    subst hrec
    show computeLanguages (item.languages_url.getD "") lang = []
    exact computeLanguages_eq_nil_of_fails _ lang hfail
  · intro resp langs rec hst hb hurl h
    obtain ⟨respRel, releases, -, -, -, -, hrec⟩ :=
      found_inversion item rel (.ok resp) rec h
    subst hrec
    show computeLanguages (item.languages_url.getD "") (.ok resp) = _
    simp [computeLanguages, hurl, hst, hb]

/-- Witness for C8, at a hit: the failing-call part and the
successful-call part (where `roundDiv35 350 = 10`) evaluated at `itemW`. -/
theorem c8_witness :
    (isFoundResult (check_single_repo itemW relOkOne langFail) =
        isFoundResult (check_single_repo itemW relOkOne langOk)) ∧
    (foundRecordOf itemW [{ assets := some [{ name := "pkg.zip" }] }] langFail).languages
        = [] ∧
    (foundRecordOf itemW [{ assets := some [{ name := "pkg.zip" }] }] langOk).languages =
      [("Go", 350)].map (fun p => (p.1, { bytes := p.2, lines := roundDiv35 p.2 })) :=
  ⟨(c8_language_degrades_without_failing itemW relOkOne).1 langFail langOk,
   (c8_language_degrades_without_failing itemW relOkOne).2.2.1 langFail
     (foundRecordOf itemW [{ assets := some [{ name := "pkg.zip" }] }] langFail)
     (by decide) (by decide),
   (c8_language_degrades_without_failing itemW relOkOne).2.2.2
     { status := 200, headers := [], body := .ok [("Go", 350)] } [("Go", 350)]
     (foundRecordOf itemW [{ assets := some [{ name := "pkg.zip" }] }] langOk)
     rfl rfl (by decide) (by decide)⟩

/-- C3: the aggregator's sort is non-increasing in the release count,
stable — records with equal counts keep their input order, captured by
filter invariance at every count — and a permutation of its input. -/
theorem c3_sort_descending_stable (l : List FoundRecord) :
    (sortByCountDesc l).Pairwise
      (fun a b => b.releases_count ≤ a.releases_count) ∧
    (∀ k, (sortByCountDesc l).filter (fun r => r.releases_count == k) =
        l.filter (fun r => r.releases_count == k)) ∧
    List.Perm (sortByCountDesc l) l := by
  have trans : ∀ a b c : FoundRecord,
      decide (b.releases_count ≤ a.releases_count) = true →
      decide (c.releases_count ≤ b.releases_count) = true →
      decide (c.releases_count ≤ a.releases_count) = true := by
    intro a b c h₁ h₂
    simp only [decide_eq_true_eq] at h₁ h₂ ⊢
    omega
  have total : ∀ a b : FoundRecord,
      (decide (b.releases_count ≤ a.releases_count) ||
        decide (a.releases_count ≤ b.releases_count)) = true := by
    intro a b
    rcases Nat.le_total b.releases_count a.releases_count with h | h <;> simp [h]
  simp only [sortByCountDesc]
  refine ⟨?_, ?_, ?_⟩
  · have hs := List.sorted_mergeSort trans total l
    exact hs.imp (fun h => by simpa using h)
  · intro k
    have hsubl : List.Sublist (l.filter (fun r => r.releases_count == k)) l :=
      List.filter_sublist l
    have hpw : (l.filter (fun r => r.releases_count == k)).Pairwise
        (fun a b => decide (b.releases_count ≤ a.releases_count) = true) := by
      apply List.pairwise_of_forall_mem_list
      intro a ha b hb
      have ha₂ := (List.mem_filter.mp ha).2
      have hb₂ := (List.mem_filter.mp hb).2
      simp only [beq_iff_eq] at ha₂ hb₂
      simp only [decide_eq_true_eq]
      omega
    have hsub₂ : List.Sublist (l.filter (fun r => r.releases_count == k))
        (l.mergeSort (fun a b => decide (b.releases_count ≤ a.releases_count))) :=
      List.sublist_mergeSort trans total hpw hsubl
    have hidem : (l.filter (fun r => r.releases_count == k)).filter
        (fun r => r.releases_count == k) = l.filter (fun r => r.releases_count == k) := by
      simp [List.filter_filter]
    have hsub₃ : List.Sublist (l.filter (fun r => r.releases_count == k))
        ((l.mergeSort (fun a b => decide (b.releases_count ≤ a.releases_count))).filter
          (fun r => r.releases_count == k)) := by
      have := hsub₂.filter (fun r => r.releases_count == k)
      rwa [hidem] at this
    have hperm : List.Perm
        (l.mergeSort (fun a b => decide (b.releases_count ≤ a.releases_count))) l :=
      List.mergeSort_perm l _
    have hlen : ((l.mergeSort
          (fun a b => decide (b.releases_count ≤ a.releases_count))).filter
            (fun r => r.releases_count == k)).length =
        (l.filter (fun r => r.releases_count == k)).length :=
      (hperm.filter _).length_eq
    exact (hsub₃.eq_of_length hlen.symm).symm
  · exact List.mergeSort_perm l _

/-- C4: every record in the final aggregate report counts at least one
qualifying release; misses and errors never reach the report. -/
theorem c4_report_counts_positive (probes : List ProbeEnv) (rec : FoundRecord)
    (h : rec ∈ (check_repo_releases probes).1) : 1 ≤ rec.releases_count := by
  simp only [check_repo_releases] at h
  have h₁ : rec ∈ collectResults (runAll probes) := by
    have hperm : List.Perm (sortByCountDesc (collectResults (runAll probes)))
        (collectResults (runAll probes)) := List.mergeSort_perm _ _
    exact hperm.mem_iff.mp h
  obtain ⟨res, hres, hpr⟩ := List.mem_filterMap.mp h₁
  cases res with
  | found r =>
    simp only [probeReturn, Option.some.injEq] at hpr
    subst hpr
    obtain ⟨p, hp, hcheck⟩ := List.mem_map.mp hres
    obtain ⟨resp, releases, -, -, -, hne, hrec⟩ :=
      found_inversion p.1 p.2.1 p.2.2 r hcheck
    subst hrec
    show 1 ≤ (releases.filter hasAssets).length
    have := List.length_pos.mpr hne
    omega
  | notFound => simp [probeReturn] at hpr
  | rateLimited v => simp [probeReturn] at hpr
  | forbidden => simp [probeReturn] at hpr
  | httpError s => simp [probeReturn] at hpr
  | transportError m => simp [probeReturn] at hpr

/-- The sort on a singleton collection (the merge sort is defined by
well-founded recursion, so concrete runs go through its equations). -/
theorem sortByCountDesc_singleton (r : FoundRecord) :
    sortByCountDesc [r] = [r] := by
  simp [sortByCountDesc]

/-- Witness for C4: one matching probe put through the whole pipeline. -/
theorem c4_witness :
    1 ≤ (foundRecordOf itemW [{ assets := some [{ name := "pkg.zip" }] }] langOk).releases_count :=
  c4_report_counts_positive [(itemW, relOkOne, langOk)]
    (foundRecordOf itemW [{ assets := some [{ name := "pkg.zip" }] }] langOk)
    (by
      show _ ∈ sortByCountDesc (collectResults (runAll [(itemW, relOkOne, langOk)]))
      have hcol : collectResults (runAll [(itemW, relOkOne, langOk)]) =
          [foundRecordOf itemW [{ assets := some [{ name := "pkg.zip" }] }] langOk] := by
        decide
      rw [hcol, sortByCountDesc_singleton]
      exact List.mem_singleton.mpr rfl)

/-- An error-classified outcome is returned as `None` in Python. -/
theorem probeReturn_none_of_error (res : ProbeResult)
    (h : isErrorResult res = true) : probeReturn res = none := by
  cases res <;> simp_all [isErrorResult, probeReturn]

/-- C5: a probe with an error outcome of any classification leaves the
rest of the batch untouched — the final report over the batch with the
erroring repository equals the report over the batch without it — and the
erroring repository contributes nothing. -/
theorem c5_error_never_aborts_batch (pre post : List ProbeEnv) (bad : ProbeEnv)
    (h : isErrorResult (check_single_repo bad.1 bad.2.1 bad.2.2) = true) :
    (check_repo_releases (pre ++ bad :: post)).1 =
      (check_repo_releases (pre ++ post)).1 ∧
    probeReturn (check_single_repo bad.1 bad.2.1 bad.2.2) = none := by
  have hnone := probeReturn_none_of_error _ h
  refine ⟨?_, hnone⟩
  simp only [check_repo_releases, collectResults, runAll, List.map_append,
    List.filterMap_append, List.map_cons, List.filterMap_cons, hnone]

/-- Witness for C5: a rate-limited probe between two batches. -/
theorem c5_witness :
    (check_repo_releases
        [(itemW, relOkOne, langOk), (itemW, rel403Hdr, langOk)]).1 =
      (check_repo_releases [(itemW, relOkOne, langOk)]).1 ∧
    probeReturn (check_single_repo itemW rel403Hdr langOk) = none := by
  have := c5_error_never_aborts_batch [(itemW, relOkOne, langOk)] []
    (itemW, rel403Hdr, langOk) (by decide)
  simpa using this

/-- C6 counterexample: a successfully loaded input whose only repository
has no qualifying release — the run yields zero matches and the script
writes no output artifact at all (`if repos:` on line 284), contradicting
the claim that an aggregate artifact is emitted even with zero matches. -/
theorem c6_counterexample :
    mainRun [(itemW, relOkNone, langOk)] = none := by
  have hcol : collectResults (runAll [(itemW, relOkNone, langOk)]) = [] := by decide
  show saveOutput (sortByCountDesc (collectResults (runAll [(itemW, relOkNone, langOk)])))
      (check_repo_releases [(itemW, relOkNone, langOk)]).2 = none
  rw [hcol, sortByCountDesc, List.mergeSort_nil]
  rfl

/-- C6 as amended: the run always completes, and when at least one
repository matches it emits the artifact, whose summary reports
found/total over the total descriptor count; with zero matches no
artifact is written. -/
theorem c6_artifact_when_nonempty (probes : List ProbeEnv)
    (h : (check_repo_releases probes).1 ≠ []) :
    mainRun probes = some
      { comment := summaryComment (check_repo_releases probes).1.length probes.length
        repos := (check_repo_releases probes).1 } := by
  cases hrep : (check_repo_releases probes).1 with
  | nil => exact absurd hrep h
  | cons a t =>
    show saveOutput (check_repo_releases probes).1 (check_repo_releases probes).2 = _
    rw [hrep]
    rfl

/-- Witness for C6's amended claim: one matching probe. -/
theorem c6_witness :
    mainRun [(itemW, relOkOne, langOk)] = some
      { comment := summaryComment
          (check_repo_releases [(itemW, relOkOne, langOk)]).1.length
          [(itemW, relOkOne, langOk)].length
        repos := (check_repo_releases [(itemW, relOkOne, langOk)]).1 } :=
  c6_artifact_when_nonempty [(itemW, relOkOne, langOk)] (by
    show sortByCountDesc (collectResults (runAll [(itemW, relOkOne, langOk)])) ≠ []
    have hcol : collectResults (runAll [(itemW, relOkOne, langOk)]) =
        [foundRecordOf itemW [{ assets := some [{ name := "pkg.zip" }] }] langOk] := by
      decide
    rw [hcol, sortByCountDesc_singleton]
    simp)

/-- C7: on the round-trip blob the fallback extractor recovers exactly
one descriptor, with the null description decoded to the empty string,
the language `Go`, and the web URL rebuilt as
`https://github.com/a/b`. -/
theorem c7_fallback_round_trip :
    fallbackItems c7blob.toList =
      [{ full_name := some "a/b"
         html_url := some "https://github.com/a/b"
         releases_url := some "https://api.github.com/repos/a/b/releases{/id}"
         description := some ""
         language := some "Go"
         languages_url := some "https://api.github.com/repos/a/b/languages"
         created_at := some "2020-01-01T00:00:00Z"
         updated_at := some "2020-01-02T00:00:00Z"
         pushed_at := some "2020-01-03T00:00:00Z" }] := by
  set_option maxRecDepth 100000 in decide
